import Mathlib

/-!
Verification development for the `maps_us_data` notebook of the
`covid-notebooks` repository.

The notebook loads a long (FIPS, Date)-indexed table of COVID-19 counts,
casts the boolean outlier-flag columns to int8, collapses the table to one
row per FIPS with array-valued time-series cells (via the external helper
`util.collapse_time_series`), appends per-capita columns, slices the latest
value and the trailing-week delta of each series with numpy negative
indexing, and renders choropleth maps.

Numeric cells are modelled as extended rationals (finite value, signed
infinity, or not-a-number), mirroring IEEE double semantics for the exact
arithmetic the notebook performs (products, quotients, differences of
values that are exactly representable; no rounding is involved in the
properties below).
-/

/-- Rational multiplication computed on numerators and denominators.
The field operations of `ℚ` are irreducible by design, so the model
recomputes them through `mkRat`, which the kernel can evaluate; the
bridge lemmas below identify these with the field operations. -/
def qMul (a b : ℚ) : ℚ := mkRat (a.num * b.num) (a.den * b.den)

/-- Rational addition computed on numerators and denominators. -/
def qAdd (a b : ℚ) : ℚ := mkRat (a.num * b.den + b.num * a.den) (a.den * b.den)

/-- Rational subtraction computed on numerators and denominators. -/
def qSub (a b : ℚ) : ℚ := mkRat (a.num * b.den - b.num * a.den) (a.den * b.den)

/-- Rational division computed on numerators and denominators (intended
for a nonzero divisor; the callers below test the divisor first). -/
def qDiv (a b : ℚ) : ℚ :=
  mkRat ((if 0 ≤ b.num then a.num else -a.num) * b.den) (a.den * b.num.natAbs)

theorem qMul_eq (a b : ℚ) : qMul a b = a * b := by
  rw [qMul, Rat.mkRat_eq_div]
  push_cast
  conv_rhs => rw [← Rat.num_div_den a, ← Rat.num_div_den b]
  rw [div_mul_div_comm]

theorem qAdd_eq (a b : ℚ) : qAdd a b = a + b := by
  have ha : ((a.den : ℚ)) ≠ 0 := by exact_mod_cast a.den_nz
  have hb : ((b.den : ℚ)) ≠ 0 := by exact_mod_cast b.den_nz
  rw [qAdd, Rat.mkRat_eq_div]
  push_cast
  conv_rhs => rw [← Rat.num_div_den a, ← Rat.num_div_den b]
  rw [div_add_div _ _ ha hb]
  ring_nf

theorem qSub_eq (a b : ℚ) : qSub a b = a - b := by
  have ha : ((a.den : ℚ)) ≠ 0 := by exact_mod_cast a.den_nz
  have hb : ((b.den : ℚ)) ≠ 0 := by exact_mod_cast b.den_nz
  rw [qSub, Rat.mkRat_eq_div]
  push_cast
  conv_rhs => rw [← Rat.num_div_den a, ← Rat.num_div_den b]
  rw [div_sub_div _ _ ha hb]
  ring_nf

theorem qDiv_eq (a b : ℚ) (hb : b ≠ 0) : qDiv a b = a / b := by
  have ha : ((a.den : ℚ)) ≠ 0 := by exact_mod_cast a.den_nz
  have hbd : ((b.den : ℚ)) ≠ 0 := by exact_mod_cast b.den_nz
  have hbn : b.num ≠ 0 := Rat.num_ne_zero.mpr hb
  have hbnq : ((b.num : ℚ)) ≠ 0 := by exact_mod_cast hbn
  rw [qDiv, Rat.mkRat_eq_div]
  conv_rhs => rw [← Rat.num_div_den a, ← Rat.num_div_den b]
  rw [div_div_div_comm]
  rcases lt_or_le b.num 0 with h | h
  · have h2 : ((b.num.natAbs : ℚ)) = -(b.num : ℚ) := by
      rw [Int.cast_natAbs, abs_of_neg h]
      push_cast
      ring
    rw [if_neg (not_le.mpr h)]
    push_cast [h2]
    field_simp
    exact Or.inl (mul_comm _ _)
  · have h2 : ((b.num.natAbs : ℚ)) = (b.num : ℚ) := by
      rw [Int.cast_natAbs, abs_of_nonneg h]
    rw [if_pos h]
    push_cast [h2]
    field_simp
    exact Or.inl (mul_comm _ _)

/-- Extended floating-point value: a finite rational, a signed infinity,
or not-a-number.  Models the numpy float64 values flowing through the
notebook, with exact rational arithmetic in the finite case. -/
inductive EF where
  | fin (q : ℚ)
  | pinf
  | ninf
  | nan
deriving DecidableEq, Repr

/-- True exactly on the not-a-number value (numpy `isna`). -/
def EF.isNaN : EF → Bool
  | .nan => true
  | _ => false

/-- IEEE multiplication on extended values (exact in the finite case). -/
def efMul : EF → EF → EF
  | .nan, _ => .nan
  | _, .nan => .nan
  | .fin a, .fin b => .fin (qMul a b)
  | .fin a, .pinf => if 0 < a then .pinf else if a < 0 then .ninf else .nan
  | .fin a, .ninf => if 0 < a then .ninf else if a < 0 then .pinf else .nan
  | .pinf, .fin b => if 0 < b then .pinf else if b < 0 then .ninf else .nan
  | .ninf, .fin b => if 0 < b then .ninf else if b < 0 then .pinf else .nan
  | .pinf, .pinf => .pinf
  | .pinf, .ninf => .ninf
  | .ninf, .pinf => .ninf
  | .ninf, .ninf => .pinf

/-- IEEE division on extended values: division of a nonzero finite value
by zero yields a signed infinity, `0 / 0` yields not-a-number. -/
def efDiv : EF → EF → EF
  | .nan, _ => .nan
  | _, .nan => .nan
  | .fin a, .fin b =>
      if b = 0 then (if 0 < a then .pinf else if a < 0 then .ninf else .nan)
      else .fin (qDiv a b)
  | .fin _, .pinf => .fin 0
  | .fin _, .ninf => .fin 0
  | .pinf, .fin b => if 0 ≤ b then .pinf else .ninf
  | .ninf, .fin b => if 0 ≤ b then .ninf else .pinf
  | .pinf, .pinf => .nan
  | .pinf, .ninf => .nan
  | .ninf, .pinf => .nan
  | .ninf, .ninf => .nan

/-- IEEE subtraction on extended values. -/
def efSub : EF → EF → EF
  | .nan, _ => .nan
  | _, .nan => .nan
  | .fin a, .fin b => .fin (qSub a b)
  | .fin _, .pinf => .ninf
  | .fin _, .ninf => .pinf
  | .pinf, .pinf => .nan
  | .pinf, _ => .pinf
  | .ninf, .ninf => .nan
  | .ninf, _ => .ninf

/-- IEEE addition on extended values. -/
def efAdd : EF → EF → EF
  | .nan, _ => .nan
  | _, .nan => .nan
  | .fin a, .fin b => .fin (qAdd a b)
  | .fin _, .pinf => .pinf
  | .fin _, .ninf => .ninf
  | .pinf, .ninf => .nan
  | .pinf, _ => .pinf
  | .ninf, .pinf => .nan
  | .ninf, _ => .ninf

/-- A scalar cell of the long table: an integer count or a boolean
outlier flag (the two dtypes appearing in the cleaned CSV measurements). -/
inductive CellV where
  | vInt (n : ℤ)
  | vBool (b : Bool)
deriving DecidableEq, Repr

/-- One row of the long (FIPS, Date)-indexed table `cases_vertical`.
Dates are modelled by naturals (only their order matters), FIPS codes by
naturals, measurement cells by an association list keyed by column name,
and the per-location constant columns (State, County, Population) are
carried inline. -/
structure LongRow where
  loc : ℕ
  date : ℕ
  state : String
  county : String
  population : ℤ
  cells : List (String × CellV)
deriving DecidableEq, Repr

/-- The three boolean outlier-flag columns cast to int8 by the notebook. -/
def outlierCols : List String :=
  ["Confirmed_Outlier", "Deaths_Outlier", "Recovered_Outlier"]

/-- `astype(np.int8)` on one cell: booleans become 0 or 1, integers wrap
into the int8 range. -/
def castCellInt8 : CellV → CellV
  | .vBool b => .vInt (if b then 1 else 0)
  | .vInt n => .vInt ((n + 128) % 256 - 128)

/-- The notebook cell
`for col in [...]: cases_vertical[col] = cases_vertical[col].astype(np.int8)`:
an in-place cast of the three outlier-flag columns of the long table. -/
def castOutlierCols (rows : List LongRow) : List LongRow :=
  rows.map fun r =>
    { r with cells := r.cells.map fun p =>
        if p.1 ∈ outlierCols then (p.1, castCellInt8 p.2) else p }

/-- Key of a long row: the (Location, Date) pair indexed by `set_index`. -/
def rowKey (r : LongRow) : ℕ × ℕ := (r.loc, r.date)

/-- Failure mode of the collapse stage: the (FIPS, Date) uniqueness check
of `set_index(..., verify_integrity=True)` rejects the table. -/
inductive CollapseErr where
  | duplicateKey
deriving DecidableEq, Repr

/-- One row of the collapsed (wide) table: one location, its carried
constant columns, and for each measurement field an array-valued cell
aligned with the shared date axis.  A `none` entry is the gap marker for
a (Location, Date) combination absent from the source. -/
structure CWideRow where
  loc : ℕ
  state : String
  county : String
  population : ℤ
  series : List (String × List (Option CellV))
deriving DecidableEq, Repr

/-- The collapsed table together with its shared sorted date axis. -/
structure CollapsedTable where
  dates : List ℕ
  rows : List CWideRow
deriving DecidableEq, Repr

/-- Find the source row for a given (Location, Date) pair. -/
def findRow (rows : List LongRow) (l d : ℕ) : Option LongRow :=
  rows.find? fun r => r.loc == l && r.date == d

/-- Build the wide row of one location: carried columns come from the
first source row of that location, and each requested field becomes a
sequence over the date axis with gap markers where no row exists. -/
def mkWideRow (rows : List LongRow) (fields : List String) (axis : List ℕ)
    (l : ℕ) : Option CWideRow :=
  (rows.find? fun r => r.loc == l).map fun r0 =>
    { loc := l
      state := r0.state
      county := r0.county
      population := r0.population
      series := fields.map fun f =>
        (f, axis.map fun d => (findRow rows l d).bind fun r => r.cells.lookup f) }

/-- Modelled from the spec: `util.collapse_time_series` (the local `util`
module is not part of this source tree; only its call site is).  Per the
contract in the specification, it fails with a duplicate-key error when
the table is not uniquely keyed by (Location, Date) — in the notebook this
check is performed upfront by `set_index(["FIPS", "Date"],
verify_integrity=True)` — and otherwise produces one row per distinct
location, each measurement field collapsed to a sequence over the shared
sorted axis of distinct dates, with a gap marker for absent combinations. -/
def collapse_time_series (rows : List LongRow) (fields : List String) :
    Except CollapseErr CollapsedTable :=
  if (rows.map rowKey).Nodup then
    let axis := List.insertionSort (· ≤ ·) (rows.map (·.date)).dedup
    .ok { dates := axis
          rows := ((rows.map (·.loc)).dedup).filterMap (mkWideRow rows fields axis) }
  else
    .error .duplicateKey

/-- The measurement fields collapsed by the notebook. -/
def nbFields : List String :=
  ["Confirmed", "Deaths", "Recovered",
   "Confirmed_Outlier", "Deaths_Outlier", "Recovered_Outlier"]

/-- Conversion of a collapsed cell to the numpy value stored in the
tensor-backed column: integers and 0/1 booleans become finite floats,
a gap becomes not-a-number. -/
def cellEF : Option CellV → EF
  | some (.vInt n) => .fin n
  | some (.vBool b) => .fin (if b then 1 else 0)
  | none => .nan

/-- One row of the numeric wide frame `cases`: carried columns plus
tensor-backed series columns of extended floats. -/
structure WideRow where
  loc : ℕ
  state : String
  county : String
  population : ℤ
  series : List (String × List EF)
deriving DecidableEq, Repr

/-- The numeric wide frame `cases` with its shared date axis. -/
structure Frame where
  dates : List ℕ
  rows : List WideRow
deriving DecidableEq, Repr

/-- The numeric frame built from the collapsed table. -/
def frameOfCollapsed (t : CollapsedTable) : Frame :=
  { dates := t.dates
    rows := t.rows.map fun w =>
      { loc := w.loc
        state := w.state
        county := w.county
        population := w.population
        series := w.series.map fun p => (p.1, p.2.map cellEF) } }

/-- Well-formedness of the frame: every series column of every row has the
length of the shared date axis (the rectangular-tensor invariant). -/
def frameWF (f : Frame) : Bool :=
  f.rows.all fun r => r.series.all fun p => p.2.length == f.dates.length

/-- Column assignment with pandas semantics: replace the column if it is
already present, otherwise append it at the end. -/
def setEntry : List (String × List EF) → String → List EF → List (String × List EF)
  | [], c, v => [(c, v)]
  | (c0, v0) :: rest, c, v =>
      if c0 = c then (c, v) :: rest else (c0, v0) :: setEntry rest c v

/-- The per-capita transform of one series:
`100.0 * raw / population`, broadcast over the row of the tensor. -/
def perCapitaSeries (pop : ℤ) (s : List EF) : List EF :=
  s.map fun x => efDiv (efMul (.fin 100) x) (.fin pop)

/-- The notebook cells
`cases["Confirmed_per_100"] = 100.0 * cases["Confirmed"].values / cases["Population"].values.reshape(-1,1)`
and the analogous `Deaths_per_100` assignment, restricted to one row of
the broadcast.  Fails when a source column is missing. -/
def addPerCapitaRow (r : WideRow) : Option WideRow := do
  let c ← r.series.lookup "Confirmed"
  let d ← r.series.lookup "Deaths"
  let r1 : WideRow :=
    { r with series := setEntry r.series "Confirmed_per_100" (perCapitaSeries r.population c) }
  pure { r1 with series := setEntry r1.series "Deaths_per_100" (perCapitaSeries r1.population d) }

/-- The per-capita step applied to every row of the frame. -/
def addPerCapitaRows : List WideRow → Option (List WideRow)
  | [] => some []
  | r :: rs => do pure ((← addPerCapitaRow r) :: (← addPerCapitaRows rs))

/-- The per-capita column-addition step on the whole frame. -/
def framePerCapita (f : Frame) : Option Frame := do
  pure { f with rows := ← addPerCapitaRows f.rows }

/-- Extract one tensor-backed column of the frame: the list of per-row
series.  Fails (pandas `KeyError`) when some row lacks the column. -/
def colOf : List WideRow → String → Option (List (List EF))
  | [], _ => some []
  | r :: rs, c => do pure ((← r.series.lookup c) :: (← colOf rs c))

/-- Frame-level column access `cases[col].values`. -/
def getFrameCol (f : Frame) (c : String) : Option (List (List EF)) :=
  colOf f.rows c

/-- Numpy negative indexing `tensor[:, -k]` on a tensor of width `n`:
the column index is checked against the width (an index error when
`k` is out of range, even for an empty tensor), and on success position
`n - k` of every row is taken. -/
def sliceNegCol (n : ℕ) (col : List (List EF)) (k : ℕ) : Option (List EF) :=
  if 1 ≤ k ∧ k ≤ n then some (col.map fun s => s.getD (n - k) .nan)
  else none

/-- The four columns sliced into the snapshot tables. -/
def snapCols : List String :=
  ["Confirmed", "Confirmed_per_100", "Deaths", "Deaths_per_100"]

/-- The carried scalar part of one snapshot row. -/
structure SRow where
  fips : ℕ
  state : String
  county : String
  population : ℤ
deriving DecidableEq, Repr

/-- A snapshot table: the carried columns of `cases[["State", "County",
"Population"]].copy()` plus one scalar column per sliced series. -/
structure Snap where
  base : List SRow
  cols : List (String × List EF)
deriving DecidableEq, Repr

/-- The column loop of the `latest_cases` cell:
`latest_cases[col] = cases[col].values._tensor[:,-1]` for each column. -/
def latestCols (f : Frame) : List String → Option (List (String × List EF))
  | [] => some []
  | c :: cs => do
      let t ← getFrameCol f c
      let a ← sliceNegCol f.dates.length t 1
      pure ((c, a) :: (← latestCols f cs))

/-- The `latest_cases` cell: copy the carried columns, then slice the last
position of each tracked series. -/
def latestStep (f : Frame) : Option Snap := do
  pure { base := f.rows.map fun r => ⟨r.loc, r.state, r.county, r.population⟩
         cols := ← latestCols f snapCols }

/-- The column loop of the `cases_this_week` cell:
`cases_this_week[col] = cases[col].values._tensor[:,-1] - cases[col].values._tensor[:,-8]`. -/
def weekColsOf (f : Frame) : List String → Option (List (String × List EF))
  | [] => some []
  | c :: cs => do
      let t ← getFrameCol f c
      let a ← sliceNegCol f.dates.length t 1
      let b ← sliceNegCol f.dates.length t 8
      pure ((c, List.zipWith efSub a b) :: (← weekColsOf f cs))

/-- The `cases_this_week` cell: copy the carried columns, then subtract
the value 8 positions from the end from the last value of each series. -/
def weekStep (f : Frame) : Option Snap := do
  pure { base := f.rows.map fun r => ⟨r.loc, r.state, r.county, r.population⟩
         cols := ← weekColsOf f snapCols }

/-- The full derived-data pipeline of the notebook: cast the outlier
columns, collapse, append the per-capita columns, then slice the latest
and trailing-week snapshot tables. -/
def nbPipeline (rows0 : List LongRow) : Option (Frame × Snap × Snap) := do
  let rows := castOutlierCols rows0
  let t ← (collapse_time_series rows nbFields).toOption
  let f ← framePerCapita (frameOfCollapsed t)
  let latest ← latestStep f
  let week ← weekStep f
  pure (f, latest, week)

/-- The mutable state of the notebook session: the variables assigned by
its cells. -/
structure NbState where
  cases_vertical : List LongRow
  cases : Frame
  latest_cases : Snap
  cases_this_week : Snap
deriving DecidableEq, Repr

/-- The outlier-cast cell as a state transformer: it reassigns
`cases_vertical` in place. -/
def stepCast (s : NbState) : NbState :=
  { s with cases_vertical := castOutlierCols s.cases_vertical }

/-- The collapse cell as a state transformer: it assigns `cases`. -/
def stepCollapse (s : NbState) : Option NbState :=
  ((collapse_time_series s.cases_vertical nbFields).toOption).map fun t =>
    { s with cases := frameOfCollapsed t }

/-- The per-capita cell as a state transformer: it reassigns `cases`. -/
def stepPerCapita (s : NbState) : Option NbState :=
  (framePerCapita s.cases).map fun f => { s with cases := f }

/-- The `latest_cases` cell as a state transformer. -/
def stepLatest (s : NbState) : Option NbState :=
  (latestStep s.cases).map fun l => { s with latest_cases := l }

/-- The `cases_this_week` cell as a state transformer. -/
def stepWeek (s : NbState) : Option NbState :=
  (weekStep s.cases).map fun w => { s with cases_this_week := w }

/-- Comparison on non-nan extended values used for sorting inside the
quantile computation (any placement of nan is irrelevant: quantile inputs
are filtered beforehand). -/
def efLEb : EF → EF → Bool
  | .nan, _ => false
  | _, .nan => false
  | .ninf, _ => true
  | _, .ninf => false
  | _, .pinf => true
  | .pinf, _ => false
  | .fin a, .fin b => a ≤ b

/-- Insert a value into a sorted list of extended values. -/
def insertEF (x : EF) : List EF → List EF
  | [] => [x]
  | y :: ys => if efLEb x y then x :: y :: ys else y :: insertEF x ys

/-- Sort a list of extended values ascending. -/
def sortEF (l : List EF) : List EF := l.foldr insertEF []

/-- The pandas `Series.quantile(0.95)` computation with the default
linear interpolation: sort the values, take `h = 0.95 * (m - 1)`,
and return `x[floor h] + (h - floor h) * (x[ceil h] - x[floor h])`;
not-a-number on an empty series. -/
def quantile95 (l : List EF) : EF :=
  let s := sortEF l
  let m := s.length
  if m = 0 then .nan
  else
    let h : ℚ := mkRat (95 * ((m : ℤ) - 1)) 100
    let lo := s.getD h.floor.toNat .nan
    let hi := s.getD h.ceil.toNat .nan
    efAdd lo (efMul (.fin (qSub h (h.floor : ℚ))) (efSub hi lo))

/-- The data handed to the plotting library by `draw_map`: the rows kept
after dropping not-available values of the selected column, and the
colour-scale range. -/
structure MapFig where
  locations : List ℕ
  counties : List String
  values : List EF
  rangeLo : EF
  rangeHi : EF
deriving DecidableEq, Repr

/-- The `draw_map` routine: `valid_data = df[~df[col_name].isna()]`, then
a choropleth over the remaining rows with
`range_color=(0, valid_data[col_name].quantile(0.95))`. -/
def draw_map (df : Snap) (colName : String) : Option MapFig := do
  let v ← df.cols.lookup colName
  let valid := (df.base.zip v).filter fun p => !(p.2.isNaN)
  pure { locations := valid.map fun p => p.1.fips
         counties := valid.map fun p => p.1.county
         values := valid.map fun p => p.2
         rangeLo := .fin 0
         rangeHi := quantile95 (valid.map fun p => p.2) }

/-- One long row of the end-to-end example: location 1001 (FIPS "01001"),
population 1000, and the given Confirmed count on the given date. -/
def exRow (d : ℕ) (conf : ℤ) : LongRow :=
  { loc := 1001
    date := d
    state := "Alabama"
    county := "Autauga"
    population := 1000
    cells := [("Confirmed", .vInt conf), ("Deaths", .vInt 0), ("Recovered", .vInt 0),
              ("Confirmed_Outlier", .vBool false), ("Deaths_Outlier", .vBool false),
              ("Recovered_Outlier", .vBool false)] }

/-- The end-to-end example input: one location, ten consecutive dates,
Confirmed series [10,12,15,15,20,22,25,30,33,40], constant population. -/
def exTable : List LongRow :=
  [exRow 1 10, exRow 2 12, exRow 3 15, exRow 4 15, exRow 5 20,
   exRow 6 22, exRow 7 25, exRow 8 30, exRow 9 33, exRow 10 40]

instance instDecEqExcept {ε α : Type} [DecidableEq ε] [DecidableEq α] :
    DecidableEq (Except ε α) := fun x y =>
  match x, y with
  | .ok a, .ok b =>
      if h : a = b then .isTrue (congrArg Except.ok h)
      else .isFalse fun he => h (Except.ok.inj he)
  | .error a, .error b =>
      if h : a = b then .isTrue (congrArg Except.error h)
      else .isFalse fun he => h (Except.error.inj he)
  | .ok _, .error _ => .isFalse fun he => Except.noConfusion he
  | .error _, .ok _ => .isFalse fun he => Except.noConfusion he

theorem find?_eq_of_nodup_keys (rows : List LongRow)
    (hnd : (rows.map rowKey).Nodup) (r : LongRow) (hr : r ∈ rows) :
    rows.find? (fun x => x.loc == r.loc && x.date == r.date) = some r := by
  induction rows with
  | nil => cases hr
  | cons y ys ih =>
    rw [List.map_cons, List.nodup_cons] at hnd
    rcases List.mem_cons.mp hr with h | h
    · subst h
      simp [List.find?]
    · have hy : (y.loc == r.loc && y.date == r.date) = false := by
        by_contra hc
        have hb : (y.loc == r.loc && y.date == r.date) = true := by
          revert hc
          cases y.loc == r.loc && y.date == r.date <;> simp
        have hkey : rowKey y = rowKey r := by
          simp only [Bool.and_eq_true, beq_iff_eq] at hb
          simp [rowKey, hb.1, hb.2]
        exact hnd.1 (hkey ▸ List.mem_map_of_mem rowKey h)
      rw [List.find?_cons_of_neg _ (by simp [hy]), ih hnd.2 h]

/-- Claim C7: a long table containing a duplicated (Location, Date) pair
makes collapsing fail with the duplicate-key error; no collapsed table
(in particular none silently dropping or averaging the duplicates) is
returned. -/
theorem collapse_duplicate_key (rows : List LongRow) (fields : List String)
    (hdup : ¬ (rows.map rowKey).Nodup) :
    collapse_time_series rows fields = .error .duplicateKey := by
  rw [collapse_time_series, if_neg hdup]

theorem collapse_duplicate_key_witness :
    collapse_time_series [exRow 1 10, exRow 1 12] nbFields
      = .error .duplicateKey :=
  collapse_duplicate_key [exRow 1 10, exRow 1 12] nbFields (by decide)

/-- The one-row long table used by the collapse witnesses. -/
def wRow : LongRow :=
  { loc := 5, date := 3, state := "S", county := "C", population := 7,
    cells := [("Confirmed", CellV.vInt 2)] }

/-- The collapse of `[wRow]` over the single field `Confirmed`. -/
def wCollapsed : CollapsedTable :=
  { dates := [3]
    rows := [{ loc := 5, state := "S", county := "C", population := 7,
               series := [("Confirmed", [some (CellV.vInt 2)])] }] }

/-- Claim C2: the collapse output is well-formed: the date axis is sorted
ascending and has no duplicates, its length is the number of distinct
dates of the input, and every measurement sequence of every produced row
has exactly the length of the date axis. -/
theorem collapse_wellformed (rows : List LongRow) (fields : List String)
    (t : CollapsedTable) (h : collapse_time_series rows fields = .ok t) :
    List.Sorted (· ≤ ·) t.dates ∧ t.dates.Nodup
      ∧ t.dates.length = (rows.map (·.date)).toFinset.card
      ∧ ∀ w ∈ t.rows, ∀ p ∈ w.series, p.2.length = t.dates.length := by
  rw [collapse_time_series] at h
  split at h
  case isFalse => exact absurd h (by simp)
  case isTrue hnd =>
    rw [Except.ok.injEq] at h
    subst h
    refine ⟨List.sorted_insertionSort _ _, ?_, ?_, ?_⟩
    · exact ((List.perm_insertionSort _ _).nodup_iff).mpr (List.nodup_dedup _)
    · rw [(List.perm_insertionSort _ _).length_eq, List.card_toFinset]
    · intro w hw p hp
      rcases List.mem_filterMap.mp hw with ⟨l, _, hmk⟩
      rw [mkWideRow] at hmk
      rcases Option.map_eq_some'.mp hmk with ⟨r0, _, hw0⟩
      subst hw0
      simp only at hp
      rcases List.mem_map.mp hp with ⟨f, _, hpeq⟩
      subst hpeq
      exact List.length_map _ _

theorem collapse_wellformed_witness :
    List.Sorted (· ≤ ·) wCollapsed.dates ∧ wCollapsed.dates.Nodup
      ∧ wCollapsed.dates.length = (([wRow].map (·.date)).toFinset.card)
      ∧ ∀ w ∈ wCollapsed.rows, ∀ p ∈ w.series,
          p.2.length = wCollapsed.dates.length :=
  collapse_wellformed [wRow] ["Confirmed"] wCollapsed (by decide)

/-- Claim C1: collapsing a uniquely keyed long table and re-expanding
reproduces the original scalars: for every source row and every collapsed
measurement field carrying a value in that row, the produced wide table
has a row for the source location whose sequence for that field holds
exactly the original value at the axis position of the source date. -/
theorem collapse_roundtrip (rows : List LongRow) (fields : List String)
    (t : CollapsedTable) (h : collapse_time_series rows fields = .ok t)
    (r : LongRow) (hr : r ∈ rows) (f : String) (hf : f ∈ fields)
    (v : CellV) (hv : r.cells.lookup f = some v) :
    ∃ w ∈ t.rows, w.loc = r.loc ∧ ∃ s, w.series.lookup f = some s ∧
      s[t.dates.indexOf r.date]? = some (some v) := by
  rw [collapse_time_series] at h
  split at h
  case isFalse => exact absurd h (by simp)
  case isTrue hnd =>
    rw [Except.ok.injEq] at h
    subst h
    simp only
    set axis := List.insertionSort (· ≤ ·) (rows.map (·.date)).dedup with haxis
    have hloc : r.loc ∈ (rows.map (·.loc)).dedup :=
      List.mem_dedup.mpr (List.mem_map_of_mem _ hr)
    have hfind : ∃ r0, rows.find? (fun x => x.loc == r.loc) = some r0 := by
      rw [← Option.isSome_iff_exists, List.find?_isSome]
      exact ⟨r, hr, by simp⟩
    rcases hfind with ⟨r0, hr0⟩
    refine ⟨{ loc := r.loc, state := r0.state, county := r0.county,
              population := r0.population,
              series := fields.map fun f =>
                (f, axis.map fun d =>
                  (findRow rows r.loc d).bind fun x => x.cells.lookup f) }, ?_, rfl, ?_⟩
    · exact List.mem_filterMap.mpr
        ⟨r.loc, hloc, by rw [mkWideRow, hr0, Option.map_some']⟩
    · refine ⟨_, List.lookup_graph _ hf, ?_⟩
      have hdmem : r.date ∈ axis :=
        ((List.perm_insertionSort _ _).mem_iff).mpr
          (List.mem_dedup.mpr (List.mem_map_of_mem _ hr))
      rw [List.getElem?_map, List.getElem?_indexOf hdmem, Option.map_some']
      have : findRow rows r.loc r.date = some r :=
        find?_eq_of_nodup_keys rows hnd r hr
      rw [this, Option.some_bind, hv]

theorem collapse_roundtrip_witness :
    ∃ w ∈ wCollapsed.rows, w.loc = wRow.loc ∧
      ∃ s, w.series.lookup "Confirmed" = some s ∧
        s[wCollapsed.dates.indexOf wRow.date]? = some (some (CellV.vInt 2)) :=
  collapse_roundtrip [wRow] ["Confirmed"] wCollapsed (by decide) wRow
    (by decide) "Confirmed" (by decide) (CellV.vInt 2) (by decide)

/-- The wide row used by the per-capita counterexample: population zero,
a positive Confirmed count. -/
def cexRow : WideRow :=
  { loc := 1, state := "S", county := "C", population := 0,
    series := [("Confirmed", [EF.fin 10]), ("Deaths", [EF.fin 0])] }

/-- Claim C5 as stated is false: with population zero and a positive raw
value, the per-capita transform produces positive infinity (numpy
`x / 0.0` for `x > 0`), which is not a not-a-number gap value. -/
theorem perCapita_zero_pop_cex :
    (addPerCapitaRow cexRow).map (fun r => r.series.lookup "Confirmed_per_100")
        = some (some [EF.pinf])
      ∧ EF.pinf.isNaN = false := by
  decide

/-- Claim C5 (amended): at every position holding a finite raw value, the
per-capita transform yields `100 * raw / population` when the population
is non-zero; when the population is zero it does not crash but yields a
non-finite value: not-a-number where the raw value is zero, positive
infinity where it is positive, negative infinity where it is negative.
The sequence length is preserved. -/
theorem perCapita_pointwise (p : ℤ) (s : List EF) (i : ℕ) (q : ℚ)
    (h : s[i]? = some (.fin q)) :
    (perCapitaSeries p s).length = s.length
      ∧ (perCapitaSeries p s)[i]? = some
          (if p ≠ 0 then .fin (100 * q / (p : ℚ))
           else if q = 0 then .nan
           else if 0 < q then .pinf
           else .ninf) := by
  refine ⟨List.length_map _ _, ?_⟩
  rw [perCapitaSeries, List.getElem?_map, h, Option.map_some']
  congr 1
  have hm : efMul (.fin 100) (.fin q) = .fin (100 * q) := by
    rw [show efMul (EF.fin 100) (EF.fin q) = EF.fin (qMul 100 q) from rfl, qMul_eq]
  rw [hm]
  by_cases hp : p = 0
  · subst hp
    rw [if_neg (show ¬ ((0 : ℤ) ≠ 0) by simp)]
    have hd : efDiv (EF.fin (100 * q)) (EF.fin ((0 : ℤ) : ℚ))
        = if (((0 : ℤ) : ℚ)) = 0
          then (if 0 < 100 * q then EF.pinf
                else if 100 * q < 0 then EF.ninf else EF.nan)
          else EF.fin (qDiv (100 * q) (((0 : ℤ) : ℚ))) := rfl
    rw [hd, if_pos (by norm_num)]
    by_cases hq : q = 0
    · subst hq
      norm_num
    · rcases lt_or_gt_of_ne hq with hneg | hpos
      · have h1 : ¬ (0 : ℚ) < 100 * q := by nlinarith
        have h2 : (100 : ℚ) * q < 0 := by nlinarith
        rw [if_neg h1, if_pos h2, if_neg hq, if_neg (not_lt_of_gt hneg)]
      · have h1 : (0 : ℚ) < 100 * q := by nlinarith
        rw [if_pos h1, if_neg hq, if_pos hpos]
  · have hpq : ((p : ℚ)) ≠ 0 := Int.cast_ne_zero.mpr hp
    have hd : efDiv (EF.fin (100 * q)) (EF.fin ((p : ℤ) : ℚ))
        = if (((p : ℤ) : ℚ)) = 0
          then (if 0 < 100 * q then EF.pinf
                else if 100 * q < 0 then EF.ninf else EF.nan)
          else EF.fin (qDiv (100 * q) (((p : ℤ) : ℚ))) := rfl
    rw [hd, if_neg hpq, qDiv_eq _ _ hpq, if_pos hp]

theorem perCapita_pointwise_witness :
    (perCapitaSeries 2 [EF.fin 10]).length = [EF.fin 10].length
      ∧ (perCapitaSeries 2 [EF.fin 10])[0]? = some
          (if (2 : ℤ) ≠ 0 then .fin (100 * 10 / ((2 : ℤ) : ℚ))
           else if (10 : ℚ) = 0 then .nan
           else if 0 < (10 : ℚ) then .pinf
           else .ninf) :=
  perCapita_pointwise 2 [EF.fin 10] 0 10 (by decide)

theorem colOf_length (rs : List WideRow) (c : String) (t : List (List EF))
    (h : colOf rs c = some t) : t.length = rs.length := by
  induction rs generalizing t with
  | nil =>
    simp only [colOf, Option.some.injEq] at h
    subst h
    rfl
  | cons r rest ih =>
    simp only [colOf, Option.pure_def, Option.bind_eq_bind, Option.bind_eq_some,
      Option.some.injEq] at h
    rcases h with ⟨s, _, t0, ht0, heq⟩
    subst heq
    simp [ih t0 ht0]

theorem zipWith_map_same {α β : Type} (g h : α → β) (op : β → β → β) :
    ∀ l : List α, List.zipWith op (l.map g) (l.map h) = l.map fun x => op (g x) (h x)
  | [] => rfl
  | x :: xs => by
    simp only [List.map_cons, List.zipWith_cons_cons, zipWith_map_same g h op xs]

/-- Claim C6: with a non-empty date axis, latest-value extraction
produces a snapshot table holding, for every location row and every
tracked column, exactly the value at position `|DateAxis| - 1` of that
row's sequence (the snapshot has one scalar per row per column). -/
theorem latest_extraction (f : Frame) (t1 t2 t3 t4 : List (List EF))
    (h1 : getFrameCol f "Confirmed" = some t1)
    (h2 : getFrameCol f "Confirmed_per_100" = some t2)
    (h3 : getFrameCol f "Deaths" = some t3)
    (h4 : getFrameCol f "Deaths_per_100" = some t4)
    (hn : 1 ≤ f.dates.length) :
    latestStep f = some
      { base := f.rows.map fun r => ⟨r.loc, r.state, r.county, r.population⟩
        cols :=
          [("Confirmed", t1.map fun s => s.getD (f.dates.length - 1) .nan),
           ("Confirmed_per_100", t2.map fun s => s.getD (f.dates.length - 1) .nan),
           ("Deaths", t3.map fun s => s.getD (f.dates.length - 1) .nan),
           ("Deaths_per_100", t4.map fun s => s.getD (f.dates.length - 1) .nan)] }
      ∧ t1.length = f.rows.length ∧ t2.length = f.rows.length
      ∧ t3.length = f.rows.length ∧ t4.length = f.rows.length := by
  have hs : ∀ t : List (List EF), sliceNegCol f.dates.length t 1
      = some (t.map fun s => s.getD (f.dates.length - 1) .nan) := by
    intro t
    rw [sliceNegCol, if_pos ⟨le_refl 1, hn⟩]
  refine ⟨?_, colOf_length _ _ _ h1, colOf_length _ _ _ h2,
    colOf_length _ _ _ h3, colOf_length _ _ _ h4⟩
  simp only [latestStep, latestCols, snapCols, h1, h2, h3, h4, hs,
    Option.pure_def, Option.bind_eq_bind, Option.some_bind]

theorem latest_extraction_witness :
    latestStep (Frame.mk [1, 2]
        [{ loc := 1, state := "S", county := "C", population := 2,
           series := [("Confirmed", [EF.fin 3, EF.fin 4]),
                      ("Confirmed_per_100", [EF.fin 5, EF.fin 6]),
                      ("Deaths", [EF.fin 7, EF.fin 8]),
                      ("Deaths_per_100", [EF.fin 9, EF.fin 10])] }]) = some
      { base := (Frame.mk [1, 2]
        [{ loc := 1, state := "S", county := "C", population := 2,
           series := [("Confirmed", [EF.fin 3, EF.fin 4]),
                      ("Confirmed_per_100", [EF.fin 5, EF.fin 6]),
                      ("Deaths", [EF.fin 7, EF.fin 8]),
                      ("Deaths_per_100", [EF.fin 9, EF.fin 10])] }]).rows.map
            fun r => ⟨r.loc, r.state, r.county, r.population⟩
        cols :=
          [("Confirmed", [[EF.fin 3, EF.fin 4]].map fun s => s.getD 1 .nan),
           ("Confirmed_per_100", [[EF.fin 5, EF.fin 6]].map fun s => s.getD 1 .nan),
           ("Deaths", [[EF.fin 7, EF.fin 8]].map fun s => s.getD 1 .nan),
           ("Deaths_per_100", [[EF.fin 9, EF.fin 10]].map fun s => s.getD 1 .nan)] }
      ∧ [[EF.fin 3, EF.fin 4]].length = 1 ∧ [[EF.fin 5, EF.fin 6]].length = 1
      ∧ [[EF.fin 7, EF.fin 8]].length = 1 ∧ [[EF.fin 9, EF.fin 10]].length = 1 :=
  latest_extraction _ _ _ _ _ (by decide) (by decide) (by decide) (by decide)
    (by decide)

/-- An eight-value series used by the trailing-week witness. -/
def demo8 : List EF :=
  [EF.fin 1, EF.fin 2, EF.fin 3, EF.fin 4, EF.fin 5, EF.fin 6, EF.fin 7, EF.fin 9]

/-- A one-row frame with an eight-day axis used by the trailing-week
witness. -/
def demoFrame8 : Frame :=
  { dates := [1, 2, 3, 4, 5, 6, 7, 8]
    rows := [{ loc := 1, state := "S", county := "C", population := 2,
               series := [("Confirmed", demo8), ("Confirmed_per_100", demo8),
                          ("Deaths", demo8), ("Deaths_per_100", demo8)] }] }

/-- Claim C3: with a date axis of length at least 8, trailing-week
extraction produces, for every tracked column and every location row,
exactly `value[n-1] - value[n-8]` of that row's sequence (with
`n = |DateAxis|`, these are the positions `last` and `last - 7`). -/
theorem thisWeek_delta (f : Frame) (t1 t2 t3 t4 : List (List EF))
    (h1 : getFrameCol f "Confirmed" = some t1)
    (h2 : getFrameCol f "Confirmed_per_100" = some t2)
    (h3 : getFrameCol f "Deaths" = some t3)
    (h4 : getFrameCol f "Deaths_per_100" = some t4)
    (hn : 8 ≤ f.dates.length) :
    weekStep f = some
      { base := f.rows.map fun r => ⟨r.loc, r.state, r.county, r.population⟩
        cols :=
          [("Confirmed", t1.map fun s =>
              efSub (s.getD (f.dates.length - 1) .nan) (s.getD (f.dates.length - 8) .nan)),
           ("Confirmed_per_100", t2.map fun s =>
              efSub (s.getD (f.dates.length - 1) .nan) (s.getD (f.dates.length - 8) .nan)),
           ("Deaths", t3.map fun s =>
              efSub (s.getD (f.dates.length - 1) .nan) (s.getD (f.dates.length - 8) .nan)),
           ("Deaths_per_100", t4.map fun s =>
              efSub (s.getD (f.dates.length - 1) .nan) (s.getD (f.dates.length - 8) .nan))] }
      ∧ t1.length = f.rows.length ∧ t2.length = f.rows.length
      ∧ t3.length = f.rows.length ∧ t4.length = f.rows.length := by
  have hs1 : ∀ t : List (List EF), sliceNegCol f.dates.length t 1
      = some (t.map fun s => s.getD (f.dates.length - 1) .nan) := by
    intro t
    rw [sliceNegCol, if_pos ⟨le_refl 1, le_trans (by norm_num) hn⟩]
  have hs8 : ∀ t : List (List EF), sliceNegCol f.dates.length t 8
      = some (t.map fun s => s.getD (f.dates.length - 8) .nan) := by
    intro t
    rw [sliceNegCol, if_pos ⟨by norm_num, hn⟩]
  refine ⟨?_, colOf_length _ _ _ h1, colOf_length _ _ _ h2,
    colOf_length _ _ _ h3, colOf_length _ _ _ h4⟩
  simp only [weekStep, weekColsOf, snapCols, h1, h2, h3, h4, hs1, hs8,
    Option.pure_def, Option.bind_eq_bind, Option.some_bind,
    zipWith_map_same]

theorem thisWeek_delta_witness :
    weekStep demoFrame8 = some
      { base := demoFrame8.rows.map fun r => ⟨r.loc, r.state, r.county, r.population⟩
        cols :=
          [("Confirmed", [demo8].map fun s =>
              efSub (s.getD (demoFrame8.dates.length - 1) .nan)
                    (s.getD (demoFrame8.dates.length - 8) .nan)),
           ("Confirmed_per_100", [demo8].map fun s =>
              efSub (s.getD (demoFrame8.dates.length - 1) .nan)
                    (s.getD (demoFrame8.dates.length - 8) .nan)),
           ("Deaths", [demo8].map fun s =>
              efSub (s.getD (demoFrame8.dates.length - 1) .nan)
                    (s.getD (demoFrame8.dates.length - 8) .nan)),
           ("Deaths_per_100", [demo8].map fun s =>
              efSub (s.getD (demoFrame8.dates.length - 1) .nan)
                    (s.getD (demoFrame8.dates.length - 8) .nan))] }
      ∧ [demo8].length = demoFrame8.rows.length
      ∧ [demo8].length = demoFrame8.rows.length
      ∧ [demo8].length = demoFrame8.rows.length
      ∧ [demo8].length = demoFrame8.rows.length :=
  thisWeek_delta demoFrame8 [demo8] [demo8] [demo8] [demo8]
    (by decide) (by decide) (by decide) (by decide) (by decide)

/-- Claim C4: with a date axis of length strictly less than 8,
trailing-week extraction does not produce a snapshot table: the numpy
column access 8 positions from the end is out of bounds, so the step
fails (the insufficient-history failure of the specification). -/
theorem thisWeek_insufficient (f : Frame) (hn : f.dates.length < 8) :
    weekStep f = none := by
  have h8 : ¬ (1 ≤ 8 ∧ 8 ≤ f.dates.length) := by omega
  cases hc : getFrameCol f "Confirmed" with
  | none => simp [weekStep, weekColsOf, snapCols, hc]
  | some t =>
    have hs8 : sliceNegCol f.dates.length t 8 = none := by
      rw [sliceNegCol, if_neg h8]
    cases hs : sliceNegCol f.dates.length t 1 with
    | none => simp [weekStep, weekColsOf, snapCols, hc, hs]
    | some a => simp [weekStep, weekColsOf, snapCols, hc, hs, hs8]

theorem thisWeek_insufficient_witness :
    weekStep (Frame.mk [1, 2, 3]
      [{ loc := 1, state := "S", county := "C", population := 2,
         series := [("Confirmed", [EF.fin 1, EF.fin 2, EF.fin 3])] }]) = none :=
  thisWeek_insufficient _ (by decide)

/-- Claim C8: on the example input (one location, ten consecutive dates,
Confirmed = [10,12,15,15,20,22,25,30,33,40], population 1000), the
pipeline yields a latest `Confirmed_per_100` of 4 and a this-week
`Confirmed` delta of 25 = 40 - 15 (position 9 minus position 2). -/
theorem end_to_end_example :
    (nbPipeline exTable).map
      (fun x => (x.2.1.cols.lookup "Confirmed_per_100",
                 x.2.2.cols.lookup "Confirmed"))
      = some (some [EF.fin 4], some [EF.fin 25]) := by
  decide

/-- Claim C10: `draw_map` renders exactly the rows whose selected column
is not not-a-number, with colour range from 0 to the 0.95 quantile of the
selected column over those remaining rows. -/
theorem draw_map_filters (df : Snap) (c : String) (v : List EF) (fig : MapFig)
    (hv : df.cols.lookup c = some v) (h : draw_map df c = some fig) :
    fig.locations
        = (((df.base.zip v).filter fun p => !(p.2.isNaN)).map fun p => p.1.fips)
      ∧ fig.values
        = (((df.base.zip v).filter fun p => !(p.2.isNaN)).map fun p => p.2)
      ∧ fig.rangeLo = EF.fin 0
      ∧ fig.rangeHi
        = quantile95 (((df.base.zip v).filter fun p => !(p.2.isNaN)).map fun p => p.2) := by
  rw [draw_map, hv] at h
  simp only [Option.pure_def, Option.bind_eq_bind, Option.some_bind,
    Option.some.injEq] at h
  subst h
  exact ⟨rfl, rfl, rfl, rfl⟩

/-- The snapshot table used by the rendering witness: one valid row and
one row whose selected value is a gap. -/
def demoSnap : Snap :=
  { base := [⟨1, "S", "C", 2⟩, ⟨2, "T", "D", 3⟩]
    cols := [("Confirmed", [EF.fin 1, EF.nan])] }

theorem draw_map_filters_witness :
    (MapFig.mk [1] ["C"] [EF.fin 1] (EF.fin 0) (EF.fin 1)).locations
        = (((demoSnap.base.zip [EF.fin 1, EF.nan]).filter
              fun p => !(p.2.isNaN)).map fun p => p.1.fips)
      ∧ (MapFig.mk [1] ["C"] [EF.fin 1] (EF.fin 0) (EF.fin 1)).values
        = (((demoSnap.base.zip [EF.fin 1, EF.nan]).filter
              fun p => !(p.2.isNaN)).map fun p => p.2)
      ∧ (MapFig.mk [1] ["C"] [EF.fin 1] (EF.fin 0) (EF.fin 1)).rangeLo = EF.fin 0
      ∧ (MapFig.mk [1] ["C"] [EF.fin 1] (EF.fin 0) (EF.fin 1)).rangeHi
        = quantile95 (((demoSnap.base.zip [EF.fin 1, EF.nan]).filter
              fun p => !(p.2.isNaN)).map fun p => p.2) :=
  draw_map_filters demoSnap "Confirmed" [EF.fin 1, EF.nan]
    (MapFig.mk [1] ["C"] [EF.fin 1] (EF.fin 0) (EF.fin 1)) (by decide) (by decide)

/-- An empty snapshot, used as the initial value of the snapshot
variables of the state model. -/
def emptySnap : Snap := { base := [], cols := [] }

/-- A notebook state whose long table still holds boolean outlier flags. -/
def mutSt : NbState :=
  { cases_vertical := [exRow 1 10]
    cases := { dates := [], rows := [] }
    latest_cases := emptySnap
    cases_this_week := emptySnap }

/-- Claim C9 as stated is false: the outlier-cast cell reassigns
`cases_vertical`, so one pipeline operation does mutate the long table
(the three outlier-flag columns change from boolean to int8 cells). -/
theorem longtable_mutation_cex :
    (stepCast mutSt).cases_vertical ≠ mutSt.cases_vertical := by
  decide

theorem setEntry_append (l : List (String × List EF)) (c : String) (v : List EF)
    (hc : c ∉ l.map Prod.fst) : setEntry l c v = l ++ [(c, v)] := by
  induction l with
  | nil => rfl
  | cons p rest ih =>
    obtain ⟨c0, v0⟩ := p
    simp only [List.map_cons, List.mem_cons, not_or] at hc
    rw [setEntry, if_neg (fun he => hc.1 he.symm), ih hc.2, List.cons_append]

theorem addPerCapitaRow_adds (r r2 : WideRow) (h : addPerCapitaRow r = some r2)
    (hf1 : "Confirmed_per_100" ∉ r.series.map Prod.fst)
    (hf2 : "Deaths_per_100" ∉ r.series.map Prod.fst) :
    r2.loc = r.loc ∧ r2.state = r.state ∧ r2.county = r.county
      ∧ r2.population = r.population
      ∧ ∃ u v, r2.series
          = r.series ++ [("Confirmed_per_100", u), ("Deaths_per_100", v)] := by
  simp only [addPerCapitaRow, Option.pure_def, Option.bind_eq_bind,
    Option.bind_eq_some, Option.some.injEq] at h
  rcases h with ⟨c, hc, d, hd, heq⟩
  subst heq
  refine ⟨rfl, rfl, rfl, rfl, perCapitaSeries r.population c,
    perCapitaSeries r.population d, ?_⟩
  simp only
  rw [setEntry_append _ _ _ hf1, setEntry_append, List.append_assoc]
  · rfl
  · simp only [List.map_append, List.map_cons, List.map_nil]
    intro hmem
    rcases List.mem_append.mp hmem with hm | hm
    · exact hf2 hm
    · simp at hm

theorem addPerCapitaRows_adds (rs : List WideRow) (rs2 : List WideRow)
    (h : addPerCapitaRows rs = some rs2)
    (hf : ∀ r ∈ rs, "Confirmed_per_100" ∉ r.series.map Prod.fst
            ∧ "Deaths_per_100" ∉ r.series.map Prod.fst) :
    List.Forall₂ (fun r r2 => r2.loc = r.loc ∧ r2.state = r.state
      ∧ r2.county = r.county ∧ r2.population = r.population
      ∧ ∃ u v, r2.series
          = r.series ++ [("Confirmed_per_100", u), ("Deaths_per_100", v)])
      rs rs2 := by
  induction rs generalizing rs2 with
  | nil =>
    simp only [addPerCapitaRows, Option.some.injEq] at h
    subst h
    exact List.Forall₂.nil
  | cons r rest ih =>
    simp only [addPerCapitaRows, Option.pure_def, Option.bind_eq_bind,
      Option.bind_eq_some, Option.some.injEq] at h
    rcases h with ⟨r2, hr2, rest2, hrest2, heq⟩
    subst heq
    exact List.Forall₂.cons
      (addPerCapitaRow_adds r r2 hr2 (hf r (by simp)).1 (hf r (by simp)).2)
      (ih rest2 hrest2 fun x hx => hf x (by simp [hx]))

/-- Claim C9 (amended): deriving the Latest and ThisWeek snapshot tables
changes neither the wide frame nor the long table, and the per-capita
step changes the wide frame only by appending the two per-capita columns
to each row (date axis, carried fields and all existing columns are
preserved) while leaving the long table untouched.  The one remaining
in-place modification of the pipeline is the outlier-cast cell, which
does reassign the long table (see the counterexample). -/
theorem snapshot_steps_no_mutation (s1 s2 s3 sL sW sP : NbState)
    (hL : stepLatest s1 = some sL)
    (hW : stepWeek s2 = some sW)
    (hP : stepPerCapita s3 = some sP)
    (hf : ∀ r ∈ s3.cases.rows, "Confirmed_per_100" ∉ r.series.map Prod.fst
            ∧ "Deaths_per_100" ∉ r.series.map Prod.fst) :
    (sL.cases = s1.cases ∧ sL.cases_vertical = s1.cases_vertical)
      ∧ (sW.cases = s2.cases ∧ sW.cases_vertical = s2.cases_vertical)
      ∧ (sP.cases_vertical = s3.cases_vertical
         ∧ sP.cases.dates = s3.cases.dates
         ∧ List.Forall₂ (fun r r2 => r2.loc = r.loc ∧ r2.state = r.state
              ∧ r2.county = r.county ∧ r2.population = r.population
              ∧ ∃ u v, r2.series
                  = r.series ++ [("Confirmed_per_100", u), ("Deaths_per_100", v)])
            s3.cases.rows sP.cases.rows) := by
  rcases Option.map_eq_some'.mp hL with ⟨l, _, hLs⟩
  rcases Option.map_eq_some'.mp hW with ⟨w, _, hWs⟩
  rcases Option.map_eq_some'.mp hP with ⟨fr, hfr, hPs⟩
  subst hLs
  subst hWs
  subst hPs
  refine ⟨⟨rfl, rfl⟩, ⟨rfl, rfl⟩, rfl, ?_, ?_⟩
  all_goals
    simp only [framePerCapita, Option.pure_def, Option.bind_eq_bind,
      Option.bind_eq_some, Option.some.injEq] at hfr
  all_goals rcases hfr with ⟨rs2, hrs2, heq⟩
  all_goals subst heq
  · rfl
  · exact addPerCapitaRows_adds _ _ hrs2 hf

/-- A notebook state whose frame already carries all four snapshot
columns (used by the latest/this-week parts of the no-mutation witness). -/
def demoSt : NbState :=
  { cases_vertical := []
    cases := demoFrame8
    latest_cases := emptySnap
    cases_this_week := emptySnap }

/-- A notebook state whose frame does not yet carry per-capita columns
(used by the per-capita part of the no-mutation witness). -/
def pcSt : NbState :=
  { cases_vertical := []
    cases := { dates := [1]
               rows := [{ loc := 1, state := "S", county := "C", population := 4,
                          series := [("Confirmed", [EF.fin 1]),
                                     ("Deaths", [EF.fin 2])] }] }
    latest_cases := emptySnap
    cases_this_week := emptySnap }

/-- The state after the latest-slice cell on `demoSt`. -/
def demoStL : NbState :=
  { demoSt with latest_cases :=
      { base := [⟨1, "S", "C", 2⟩]
        cols := [("Confirmed", [EF.fin 9]), ("Confirmed_per_100", [EF.fin 9]),
                 ("Deaths", [EF.fin 9]), ("Deaths_per_100", [EF.fin 9])] } }

/-- The state after the this-week cell on `demoSt`. -/
def demoStW : NbState :=
  { demoSt with cases_this_week :=
      { base := [⟨1, "S", "C", 2⟩]
        cols := [("Confirmed", [EF.fin 8]), ("Confirmed_per_100", [EF.fin 8]),
                 ("Deaths", [EF.fin 8]), ("Deaths_per_100", [EF.fin 8])] } }

/-- The state after the per-capita cell on `pcSt`. -/
def pcStP : NbState :=
  { pcSt with cases :=
      { dates := [1]
        rows := [{ loc := 1, state := "S", county := "C", population := 4,
                   series := [("Confirmed", [EF.fin 1]),
                              ("Deaths", [EF.fin 2]),
                              ("Confirmed_per_100", [EF.fin 25]),
                              ("Deaths_per_100", [EF.fin 50])] }] } }

theorem snapshot_steps_no_mutation_witness :
    (demoStL.cases = demoSt.cases
        ∧ demoStL.cases_vertical = demoSt.cases_vertical)
      ∧ (demoStW.cases = demoSt.cases
        ∧ demoStW.cases_vertical = demoSt.cases_vertical)
      ∧ (pcStP.cases_vertical = pcSt.cases_vertical
         ∧ pcStP.cases.dates = pcSt.cases.dates
         ∧ List.Forall₂ (fun r r2 => r2.loc = r.loc ∧ r2.state = r.state
              ∧ r2.county = r.county ∧ r2.population = r.population
              ∧ ∃ u v, r2.series
                  = r.series ++ [("Confirmed_per_100", u), ("Deaths_per_100", v)])
            pcSt.cases.rows pcStP.cases.rows) :=
  snapshot_steps_no_mutation demoSt demoSt pcSt demoStL demoStW pcStP
    (by decide) (by decide) (by decide) (by decide)
